import Mathlib

/-!
Shallow embedding of `src/impression.js` (AMP impression tracking).

The file is a promise orchestration over external collaborators (viewer
messaging, timer service, XHR, URL utilities).  Each asynchronous
collaborator outcome is injected through an environment record as an
`Except` value (rejection vs fulfillment), and each function of the source
is embedded as a pure function returning the ordered list of observable
side effects (its event trace) together with the settlement of the promise
it returns.  JavaScript truthiness of the string-valued parameters and
response fields is modelled explicitly (`none` = absent/undefined,
`some ""` = present but empty, hence falsy).

The URL utilities (`isProxyOrigin`, `parseUrl`, `parseQueryString`,
`addParamsToUrl`) are external collaborators per the module's imports, so
they appear as abstract function parameters of the environment.
-/

namespace Impression

/-- Observable side effects of the module, in program order. -/
inductive Event where
  /-- `dev().warn` / `user().warn` with the given message. -/
  | warnEvt (msg : String)
  /-- `viewer.sendMessageAwaitResponse('getReplaceUrl', undefined)` sent. -/
  | sendGetReplaceUrl
  /-- `viewer.replaceUrl(url)`; `none` models the JS `null` argument. -/
  | replaceUrlCall (url : Option String)
  /-- `win.location.hash = ''`. -/
  | clearFragment
  /-- subscription to `viewer.whenFirstVisible()`. -/
  | waitVisible
  /-- `Services.xhrFor(win).fetchJson(url, ...)` issued. -/
  | fetchEvt (url : String)
  /-- `new Image().src = trackUrl` (tracking beacon). -/
  | imageBeacon (url : String)
  /-- `win.history.replaceState(null, '', href)`. -/
  | historyReplace (href : String)
deriving DecidableEq, Repr

/-- Settlement of a step promise (each modelled collaborator settles). -/
inductive StepOutcome where
  | fulfilled
  | rejected
deriving DecidableEq, Repr

/-- Settlement state of the session promise. -/
inductive PromiseState where
  | fulfilled
  | rejected
  | pending
deriving DecidableEq, Repr

/-- Which code path called `resolveImpression`. -/
inductive ResolveSrc where
  /-- the untrusted-context early return (line 77). -/
  | skip
  /-- the fulfillment handler of the `Promise.all` join (line 85). -/
  | join
deriving DecidableEq, Repr

/-- Response of the `getReplaceUrl` viewer message: either a value failing
the `!response || typeof response != 'object'` check, or an object whose
`replaceUrl` field is the given optional string. -/
inductive MsgResponse where
  | nonObject
  | object (replaceUrl : Option String)
deriving DecidableEq, Repr

/-- Parsed JSON body of the click-tracking response; only the `location`
and `tracking_url` fields are read by `applyResponse`. -/
structure AdResponse where
  location : Option String
  tracking_url : Option String
deriving DecidableEq, Repr

/-- The external URL utilities imported from `./url`, kept abstract. -/
structure UrlOps where
  /-- `isProxyOrigin(url)`. -/
  isProxyOrigin : String → Bool
  /-- `parseUrl(url).search`. -/
  parseUrlSearch : String → String
  /-- `parseQueryString(search)` as a key/value list. -/
  parseQueryString : String → List (String × String)
  /-- `addParamsToUrl(href, params)`. -/
  addParamsToUrl : String → List (String × String) → String

/-- One run environment: viewer init parameters and capabilities, the
injected settlement of every asynchronous collaborator, window state and
mode flags.  `timeoutFires` injects whether the 8000ms timeout loses or
wins the race against the inner impression promise. -/
structure Env where
  params : List (String × String)
  capabilities : List String
  isTrustedViewer : Except Unit Bool
  isTrustedReferrer : Except Unit Bool
  alpOn : Bool
  getReplaceUrlResponse : Except Unit MsgResponse
  whenFirstVisible : Except Unit Unit
  fetchResult : Except Unit AdResponse
  locationHash : String
  locationHref : String
  historyReplaceState : Bool
  localDev : Bool
  testMode : Bool
  timeoutFires : Bool
  urlOps : UrlOps

/-- `viewer.getParam(name)`: `none` when the parameter is absent. -/
def getParam (env : Env) (name : String) : Option String :=
  (env.params.find? (fun kv => kv.1 == name)).map (fun kv => kv.2)

/-- `viewer.hasCapability(name)`. -/
def hasCapability (env : Env) (name : String) : Bool :=
  env.capabilities.contains name

/-- JS truthiness of a string-or-undefined value: absent and `""` are
falsy. -/
def jsTruthy : Option String → Bool
  | some s => s != ""
  | none => false

/-- JS `v || null` on a string-or-undefined value. -/
def jsOrNull (o : Option String) : Option String :=
  if jsTruthy o then o else none

/-- `s.indexOf(pat) == 0`, i.e. `s` starts with `pat`; over the character
lists so that concrete instances evaluate by kernel reduction. -/
def strStartsWith (s pat : String) : Bool :=
  pat.toList.isPrefixOf s.toList

/-- Warning message of line 129. -/
def invalidReplaceUrlMsg : String := "get invalid replaceUrl response"

/-- Warning message of line 134. -/
def replaceUrlErrMsg : String := "Error request replaceUrl from viewer"

/-- Warning message of lines 155-157. -/
def clickWarnMsg : String :=
  "click fragment param should start with https://. Found "

/-- `handleReplaceUrl(win)` (lines 108-136): event trace and settlement
of the returned promise. -/
def handleReplaceUrl (env : Env) : List Event × StepOutcome :=
  if jsTruthy (getParam env "replaceUrl") = false then
    ([], .fulfilled)
  else if hasCapability env "replaceUrl" = false then
    ([.replaceUrlCall (jsOrNull (getParam env "replaceUrl"))], .fulfilled)
  else
    match env.getReplaceUrlResponse with
    | .error _ => ([.sendGetReplaceUrl, .warnEvt replaceUrlErrMsg], .fulfilled)
    | .ok .nonObject =>
        ([.sendGetReplaceUrl, .warnEvt invalidReplaceUrlMsg], .fulfilled)
    | .ok (.object r) =>
        ([.sendGetReplaceUrl, .replaceUrlCall (jsOrNull r)], .fulfilled)

/-- The URL actually fetched by `invoke` (lines 182-191): rewritten to the
local impression proxy in local-development mode outside tests. -/
def invokeUrl (env : Env) (clickUrl : String) : String :=
  if env.localDev = true ∧ env.testMode = false then
    "http://localhost:8000/impression-proxy?url=" ++ clickUrl
  else clickUrl

/-- Lines 200-210 of `applyResponse`: `trackUrl = adTracking ||
adLocation`, and the beacon fires when `trackUrl` is truthy and not a
proxy origin. -/
def beaconEvents (env : Env) (response : AdResponse) : List Event :=
  match (if jsTruthy response.tracking_url then response.tracking_url
         else response.location) with
  | some t =>
      if t ≠ "" ∧ env.urlOps.isProxyOrigin t = false then
        [Event.imageBeacon t]
      else []
  | none => []

/-- Lines 212-223 of `applyResponse`: when `adLocation` is truthy and the
history API supports `replaceState`, replace the current entry with the
current href augmented by the query parameters parsed from the
location. -/
def historyEvents (env : Env) (response : AdResponse) : List Event :=
  match response.location with
  | some loc =>
      if loc ≠ "" then
        if env.historyReplaceState then
          [Event.historyReplace
            (env.urlOps.addParamsToUrl env.locationHref
              (env.urlOps.parseQueryString (env.urlOps.parseUrlSearch loc)))]
        else []
      else []
  | none => []

/-- `applyResponse(win, response)` (lines 199-224): event trace (the
function returns no promise); the beacon block runs before the history
block. -/
def applyResponse (env : Env) (response : AdResponse) : List Event :=
  beaconEvents env response ++ historyEvents env response

/-- `handleClickUrl(win)` (lines 145-174): event trace and settlement of
the returned promise.  The chain after the fragment check has no rejection
handler, so a rejection of `whenFirstVisible` or of the fetch rejects the
step promise. -/
def handleClickUrl (env : Env) : List Event × StepOutcome :=
  match getParam env "click" with
  | none => ([], .fulfilled)
  | some clickUrl =>
    if clickUrl = "" then
      ([], .fulfilled)
    else if strStartsWith clickUrl "https://" = false then
      ([.warnEvt clickWarnMsg], .fulfilled)
    else
      let pre :=
        (if env.locationHash ≠ "" then [Event.clearFragment] else [])
          ++ [Event.waitVisible]
      match env.whenFirstVisible with
      | .error _ => (pre, .rejected)
      | .ok _ =>
        match env.fetchResult with
        | .error _ => (pre ++ [.fetchEvt (invokeUrl env clickUrl)], .rejected)
        | .ok response =>
            (pre ++ [.fetchEvt (invokeUrl env clickUrl)]
                ++ applyResponse env response, .fulfilled)

/-- `Promise.all([isTrustedViewerPromise, isTrustedReferrerPromise])`
(lines 68-71): fulfills with both booleans, rejects if either trust query
rejects. -/
def trustResult (env : Env) : Except Unit (Bool × Bool) :=
  match env.isTrustedViewer, env.isTrustedReferrer with
  | .ok tv, .ok tr => .ok (tv, tr)
  | .error e, _ => .error e
  | .ok _, .error e => .error e

/-- `maybeTrackImpression(win)` (lines 53-88): the full event trace and
whether (and where) `resolveImpression` is ever called — `none` means the
inner promise stays pending forever.  On a step rejection the
`Promise.all` join runs its rejection handler `() => {}` (line 86), which
does not resolve. -/
def maybeTrackImpression (env : Env) : List Event × Option ResolveSrc :=
  match trustResult env with
  | .error _ => ([], none)
  | .ok tvtr =>
    if tvtr.1 = false ∧ tvtr.2 = false ∧ env.alpOn = false then
      ([], some .skip)
    else
      ((handleReplaceUrl env).1 ++ (handleClickUrl env).1,
        if (handleReplaceUrl env).2 = StepOutcome.fulfilled ∧
            (handleClickUrl env).2 = StepOutcome.fulfilled
        then some .join else none)

/-- Settlement of the stored session promise (lines 60-63):
`timeoutPromise(8000, promise, msg).catch(warn)`.  The race loses to the
timeout when `timeoutFires`; any rejection is converted to fulfillment by
the `catch` whose handler only warns. -/
def sessionOutcome (env : Env) : PromiseState :=
  let inner : PromiseState :=
    match (maybeTrackImpression env).2 with
    | some _ => .fulfilled
    | none => .pending
  match (if env.timeoutFires then PromiseState.rejected else inner) with
  | .rejected => .fulfilled
  | s => s

/-- Contract of the timer service: `timeoutPromise` rejects (the timeout
fires) whenever the inner promise has not settled within the delay — in
particular when it never settles. -/
def timerContract (env : Env) : Prop :=
  (maybeTrackImpression env).2 = none → env.timeoutFires = true

/-- Trust is established (line 76 guard not taken): the trust queries both
fulfilled and at least one trust signal or the experiment flag is on. -/
def trustEstablishedB (env : Env) : Bool :=
  match trustResult env with
  | .ok tvtr => tvtr.1 || tvtr.2 || env.alpOn
  | .error _ => false

/-- The module-level `trackImpressionPromise` handle, `null` at load
(line 30). -/
def initialTrackImpressionState : Option PromiseState := none

/-- `resetTrackImpressionPromiseForTesting()` (lines 44-46) sets the
handle back to `null`. -/
def resetTrackImpressionPromiseForTesting : Option PromiseState := none

/-- `getTrackImpressionPromise()` (lines 36-38): `dev().assert(handle)`
throws on a falsy (`null`) handle and returns the handle otherwise. -/
def getTrackImpressionPromise (s : Option PromiseState) :
    Except Unit PromiseState :=
  match s with
  | none => .error ()
  | some p => .ok p

/-! Concrete environments used to instantiate the theorems. -/

/-- Trivial URL utilities for concrete instantiations. -/
def defaultUrlOps : UrlOps where
  isProxyOrigin := fun _ => false
  parseUrlSearch := fun u => u
  parseQueryString := fun _ => []
  addParamsToUrl := fun href _ => href

/-- A baseline environment: untrusted viewer and referrer, no parameters,
every collaborator fulfilling. -/
def envSkip : Env where
  params := []
  capabilities := []
  isTrustedViewer := Except.ok false
  isTrustedReferrer := Except.ok false
  alpOn := false
  getReplaceUrlResponse := Except.ok MsgResponse.nonObject
  whenFirstVisible := Except.ok ()
  fetchResult := Except.ok { location := none, tracking_url := none }
  locationHash := ""
  locationHref := "https://example.com/page"
  historyReplaceState := true
  localDev := false
  testMode := false
  timeoutFires := false
  urlOps := defaultUrlOps

/-- Trusted viewer, valid click URL, fetch rejecting, timeout firing. -/
def envFetchFail : Env :=
  { envSkip with
      isTrustedViewer := Except.ok true
      params := [("click", "https://ad.example/track")]
      fetchResult := Except.error ()
      timeoutFires := true }

/-- Legacy replace-URL environment: parameter set, capability absent. -/
def envLegacyReplace : Env :=
  { envSkip with
      isTrustedViewer := Except.ok true
      params := [("replaceUrl", "http://x")] }

/-- Capability replace-URL environment: parameter set, capability present,
viewer answering with a well-formed object. -/
def envCapReplace : Env :=
  { envSkip with
      isTrustedViewer := Except.ok true
      params := [("replaceUrl", "http://x")]
      capabilities := ["replaceUrl"]
      getReplaceUrlResponse :=
        Except.ok (MsgResponse.object (some "http://y")) }

/-- Click parameter present but equal to the empty string. -/
def envEmptyClick : Env :=
  { envSkip with
      isTrustedViewer := Except.ok true
      params := [("click", "")] }

/-- Click parameter with a non-https scheme. -/
def envFtpClick : Env :=
  { envSkip with
      isTrustedViewer := Except.ok true
      params := [("click", "ftp://evil")] }

/-- Valid click URL, fragment present, everything fulfilling. -/
def envClickOk : Env :=
  { envSkip with
      isTrustedViewer := Except.ok true
      params := [("click", "https://ad.example/track")]
      locationHash := "#frag"
      fetchResult :=
        Except.ok { location := some "https://x/?a=1",
                    tracking_url := some "https://track.example" } }

/-- Tracking response environment without history API support. -/
def envNoHistory : Env :=
  { envClickOk with historyReplaceState := false }

/-- A concrete tracking response with both fields set. -/
def respTrack : AdResponse :=
  { location := some "https://x/?a=1", tracking_url := some "https://track.example" }

/-! Helper lemmas. -/

/-- A firing timeout is caught, so the session fulfills. -/
lemma sessionOutcome_of_timeout (env : Env) (h : env.timeoutFires = true) :
    sessionOutcome env = PromiseState.fulfilled := by
  simp [sessionOutcome, h]

/-- If `resolveImpression` was called, the session fulfills. -/
lemma sessionOutcome_of_resolved (env : Env) (src : ResolveSrc)
    (h : (maybeTrackImpression env).2 = some src) :
    sessionOutcome env = PromiseState.fulfilled := by
  cases ht : env.timeoutFires
  · simp [sessionOutcome, ht, h]
  · simp [sessionOutcome, ht]

/-- The replace-URL step promise always fulfills: every branch either
returns a resolved promise or ends in a rejection handler. -/
lemma handleReplaceUrl_snd (env : Env) :
    (handleReplaceUrl env).2 = StepOutcome.fulfilled := by
  unfold handleReplaceUrl
  split
  · rfl
  · split
    · rfl
    · split <;> rfl

/-- Established trust yields fulfilled trust queries whose booleans rule
out the early-return guard. -/
lemma trustEstablished_elim (env : Env) (h : trustEstablishedB env = true) :
    ∃ tvtr, trustResult env = Except.ok tvtr ∧
      ¬ (tvtr.1 = false ∧ tvtr.2 = false ∧ env.alpOn = false) := by
  cases htr : trustResult env with
  | error e =>
      exfalso
      unfold trustEstablishedB at h
      rw [htr] at h
      simp at h
  | ok tvtr =>
      unfold trustEstablishedB at h
      rw [htr] at h
      simp at h
      refine ⟨tvtr, rfl, ?_⟩
      intro hc
      obtain ⟨h1, h2, h3⟩ := hc
      rw [h1, h2, h3] at h
      simp at h

/-- Under established trust, `resolveImpression` is called by the join
exactly when both step promises fulfill, and otherwise never. -/
lemma maybeTrackImpression_snd_of_trust (env : Env)
    (h : trustEstablishedB env = true) :
    (maybeTrackImpression env).2 =
      (if (handleReplaceUrl env).2 = StepOutcome.fulfilled ∧
          (handleClickUrl env).2 = StepOutcome.fulfilled
       then some ResolveSrc.join else none) := by
  obtain ⟨tvtr, htr, hskip⟩ := trustEstablished_elim env h
  unfold maybeTrackImpression
  rw [htr]
  simp only
  rw [if_neg hskip]

/-! Claim theorems. -/

/-- Claim C1: the session promise set by `maybeTrackImpression` never
rejects — under the timer-service contract (the timeout fires whenever the
inner promise never settles), every combination of trust-query rejections,
messaging errors, fetch failures and the timeout firing leaves the session
promise fulfilled. -/
theorem session_promise_never_rejects (env : Env) (h : timerContract env) :
    sessionOutcome env = PromiseState.fulfilled := by
  cases ht : env.timeoutFires
  · cases hm : (maybeTrackImpression env).2 with
    | none => rw [h hm] at ht; cases ht
    | some src => simp [sessionOutcome, ht, hm]
  · simp [sessionOutcome, ht]

/-- Witness for C1 at a concrete environment. -/
theorem session_promise_never_rejects_witness :
    timerContract envSkip ∧ sessionOutcome envSkip = PromiseState.fulfilled :=
  ⟨by unfold timerContract; decide,
    session_promise_never_rejects envSkip (by unfold timerContract; decide)⟩

/-- Claim C3: with both trust queries fulfilling `false` and the `alp`
experiment off, the run performs no observable side effect at all (no
`getReplaceUrl` message, no `replaceUrl` call, no fetch) and the session
resolves through the early-return path. -/
theorem untrusted_skips_all_steps (env : Env)
    (hv : env.isTrustedViewer = Except.ok false)
    (hr : env.isTrustedReferrer = Except.ok false)
    (ha : env.alpOn = false) :
    maybeTrackImpression env = ([], some ResolveSrc.skip) ∧
    sessionOutcome env = PromiseState.fulfilled := by
  have htr : trustResult env = Except.ok (false, false) := by
    simp [trustResult, hv, hr]
  have hmti : maybeTrackImpression env = ([], some ResolveSrc.skip) := by
    simp [maybeTrackImpression, htr, ha]
  exact ⟨hmti, sessionOutcome_of_resolved env ResolveSrc.skip (by rw [hmti])⟩

/-- Witness for C3 at a concrete environment. -/
theorem untrusted_skips_all_steps_witness :
    maybeTrackImpression envSkip = ([], some ResolveSrc.skip) ∧
    sessionOutcome envSkip = PromiseState.fulfilled :=
  untrusted_skips_all_steps envSkip rfl rfl rfl

/-- Claim C2 counterexample: with trust established and the fetch
rejecting, the click step's promise rejects, the `Promise.all` join runs
its rejection handler `() => \x7b\x7d` and `resolveImpression` is never
called — the join does not resolve the session; the session fulfills only
because the timeout rejection is caught. -/
theorem join_resolves_counterexample :
    trustEstablishedB envFetchFail = true ∧
    (handleClickUrl envFetchFail).2 = StepOutcome.rejected ∧
    (maybeTrackImpression envFetchFail).2 = none ∧
    sessionOutcome envFetchFail = PromiseState.fulfilled := by
  refine ⟨by decide, by decide, by decide, by decide⟩

/-- Claim C2 (amended): once trust is established, the join resolves the
session exactly when both step promises fulfill; when either step rejects,
the rejection is swallowed at the join without resolving the session,
which then fulfills only through the timeout being caught. -/
theorem join_resolves_iff_steps_fulfill (env : Env)
    (h : trustEstablishedB env = true) :
    ((maybeTrackImpression env).2 = some ResolveSrc.join ↔
      (handleReplaceUrl env).2 = StepOutcome.fulfilled ∧
      (handleClickUrl env).2 = StepOutcome.fulfilled) ∧
    (((handleReplaceUrl env).2 = StepOutcome.rejected ∨
        (handleClickUrl env).2 = StepOutcome.rejected) →
      (maybeTrackImpression env).2 = none ∧
      (env.timeoutFires = true →
        sessionOutcome env = PromiseState.fulfilled)) := by
  have hm := maybeTrackImpression_snd_of_trust env h
  constructor
  · rw [hm]
    by_cases hrc : (handleReplaceUrl env).2 = StepOutcome.fulfilled ∧
        (handleClickUrl env).2 = StepOutcome.fulfilled
    · simp [hrc]
    · simp [hrc]
  · intro hrej
    have hnot : ¬ ((handleReplaceUrl env).2 = StepOutcome.fulfilled ∧
        (handleClickUrl env).2 = StepOutcome.fulfilled) := by
      rintro ⟨h1, h2⟩
      rcases hrej with h' | h'
      · rw [h'] at h1; cases h1
      · rw [h'] at h2; cases h2
    rw [hm, if_neg hnot]
    exact ⟨rfl, fun ht => sessionOutcome_of_timeout env ht⟩

/-- Witness for the amended C2 at a concrete environment. -/
theorem join_resolves_iff_steps_fulfill_witness :
    trustEstablishedB envFetchFail = true ∧
    (((maybeTrackImpression envFetchFail).2 = some ResolveSrc.join ↔
        (handleReplaceUrl envFetchFail).2 = StepOutcome.fulfilled ∧
        (handleClickUrl envFetchFail).2 = StepOutcome.fulfilled) ∧
      (((handleReplaceUrl envFetchFail).2 = StepOutcome.rejected ∨
          (handleClickUrl envFetchFail).2 = StepOutcome.rejected) →
        (maybeTrackImpression envFetchFail).2 = none ∧
        (envFetchFail.timeoutFires = true →
          sessionOutcome envFetchFail = PromiseState.fulfilled))) :=
  ⟨by decide, join_resolves_iff_steps_fulfill envFetchFail (by decide)⟩

/-- Claim C4: with a non-empty `replaceUrl` init parameter and no
`replaceUrl` capability, the step calls `viewer.replaceUrl` with exactly
the parameter value, sends no message, and fulfills. -/
theorem legacy_replaceUrl_direct (env : Env) (s : String)
    (hp : getParam env "replaceUrl" = some s) (hs : s ≠ "")
    (hc : hasCapability env "replaceUrl" = false) :
    handleReplaceUrl env =
      ([Event.replaceUrlCall (some s)], StepOutcome.fulfilled) := by
  have ht : jsTruthy (getParam env "replaceUrl") = true := by
    rw [hp]; simp [jsTruthy, hs]
  have hn : jsOrNull (getParam env "replaceUrl") = some s := by
    rw [jsOrNull, ht, if_pos rfl, hp]
  simp [handleReplaceUrl, ht, hc, hn]

/-- Witness for C4 at a concrete environment. -/
theorem legacy_replaceUrl_direct_witness :
    getParam envLegacyReplace "replaceUrl" = some "http://x" ∧
    handleReplaceUrl envLegacyReplace =
      ([Event.replaceUrlCall (some "http://x")], StepOutcome.fulfilled) :=
  ⟨by decide,
    legacy_replaceUrl_direct envLegacyReplace "http://x" (by decide)
      (by decide) (by decide)⟩

/-- Claim C5: in the capability-supported branch, a well-formed object
response leads to `viewer.replaceUrl(response.replaceUrl || null)`; a
non-object response or a transport rejection leads to a warning and no
`replaceUrl` call; in every case the step promise fulfills. -/
theorem capability_replaceUrl_response (env : Env)
    (hp : jsTruthy (getParam env "replaceUrl") = true)
    (hc : hasCapability env "replaceUrl" = true) :
    (handleReplaceUrl env).2 = StepOutcome.fulfilled ∧
    (∀ r, env.getReplaceUrlResponse = Except.ok (MsgResponse.object r) →
      (handleReplaceUrl env).1 =
        [Event.sendGetReplaceUrl, Event.replaceUrlCall (jsOrNull r)]) ∧
    (env.getReplaceUrlResponse = Except.ok MsgResponse.nonObject →
      (handleReplaceUrl env).1 =
        [Event.sendGetReplaceUrl, Event.warnEvt invalidReplaceUrlMsg]) ∧
    (∀ e, env.getReplaceUrlResponse = Except.error e →
      (handleReplaceUrl env).1 =
        [Event.sendGetReplaceUrl, Event.warnEvt replaceUrlErrMsg]) := by
  refine ⟨handleReplaceUrl_snd env, fun r hr => ?_, fun hr => ?_,
    fun e hr => ?_⟩ <;>
  simp [handleReplaceUrl, hp, hc, hr]

/-- Witness for C5 at a concrete environment. -/
theorem capability_replaceUrl_response_witness :
    jsTruthy (getParam envCapReplace "replaceUrl") = true ∧
    (handleReplaceUrl envCapReplace).1 =
      [Event.sendGetReplaceUrl,
        Event.replaceUrlCall (some "http://y")] :=
  ⟨by decide,
    (capability_replaceUrl_response envCapReplace (by decide)
        (by decide)).2.1 (some "http://y") rfl⟩

/-- Claim C6 counterexample: the empty string is a `click` parameter value
that does not begin with `https://`, yet the step resolves silently with
no warning logged, contradicting the claim that a warning is always
logged for such values. -/
theorem click_scheme_warn_counterexample :
    getParam envEmptyClick "click" = some "" ∧
    strStartsWith "" "https://" = false ∧
    handleClickUrl envEmptyClick = ([], StepOutcome.fulfilled) ∧
    Event.warnEvt clickWarnMsg ∉ (handleClickUrl envEmptyClick).1 := by
  refine ⟨by decide, by decide, by decide, by decide⟩

/-- Claim C6 (amended): for every non-empty `click` value not beginning
with `https://`, no fetch is issued, a warning is logged and the step
fulfills; the empty value short-circuits earlier, fulfilling with no fetch
and no warning. -/
theorem click_invalid_scheme (env : Env) (u : String)
    (hp : getParam env "click" = some u)
    (hs : strStartsWith u "https://" = false) :
    handleClickUrl env =
      ((if u = "" then [] else [Event.warnEvt clickWarnMsg]),
        StepOutcome.fulfilled) := by
  by_cases hu : u = ""
  · simp [handleClickUrl, hp, hu]
  · simp [handleClickUrl, hp, hu, hs]

/-- Witness for the amended C6 at a concrete environment. -/
theorem click_invalid_scheme_witness :
    getParam envFtpClick "click" = some "ftp://evil" ∧
    handleClickUrl envFtpClick =
      ([Event.warnEvt clickWarnMsg], StepOutcome.fulfilled) := by
  refine ⟨by decide, ?_⟩
  have h := click_invalid_scheme envFtpClick "ftp://evil" (by decide)
    (by decide)
  simpa using h

/-- Claim C7: with a valid https click URL and a non-empty location
fragment, the fragment is cleared first, then the visibility wait is
entered, and the fetch is issued only afterwards: never when the
visibility promise rejects, and directly after it resolves. -/
theorem click_fragment_visible_fetch_order (env : Env) (u : String)
    (hp : getParam env "click" = some u)
    (hs : strStartsWith u "https://" = true)
    (hh : env.locationHash ≠ "") :
    ∃ tail,
      (handleClickUrl env).1 =
        Event.clearFragment :: Event.waitVisible :: tail ∧
      (env.whenFirstVisible = Except.error () →
        ∀ v, Event.fetchEvt v ∉
          Event.clearFragment :: Event.waitVisible :: tail) ∧
      (env.whenFirstVisible = Except.ok () →
        ∃ rest, tail = Event.fetchEvt (invokeUrl env u) :: rest) := by
  have hu : u ≠ "" := by
    intro he
    rw [he] at hs
    exact absurd hs (by decide)
  cases hv : env.whenFirstVisible with
  | error e =>
      cases e
      refine ⟨[], ?_, ?_, ?_⟩
      · simp [handleClickUrl, hp, hu, hs, hh, hv]
      · intro _ v
        simp
      · intro hok
        exact absurd hok (by simp)
  | ok v0 =>
      cases v0
      cases hf : env.fetchResult with
      | error e =>
          refine ⟨[Event.fetchEvt (invokeUrl env u)], ?_, ?_, ?_⟩
          · simp [handleClickUrl, hp, hu, hs, hh, hv, hf]
          · intro herr
            exact absurd herr (by simp)
          · intro _
            exact ⟨[], rfl⟩
      | ok resp =>
          refine ⟨Event.fetchEvt (invokeUrl env u) :: applyResponse env resp,
            ?_, ?_, ?_⟩
          · simp [handleClickUrl, hp, hu, hs, hh, hv, hf]
          · intro herr
            exact absurd herr (by simp)
          · intro _
            exact ⟨applyResponse env resp, rfl⟩

/-- Witness for C7 at a concrete environment. -/
theorem click_fragment_visible_fetch_order_witness :
    getParam envClickOk "click" = some "https://ad.example/track" ∧
    envClickOk.locationHash ≠ "" ∧
    (∃ tail,
      (handleClickUrl envClickOk).1 =
        Event.clearFragment :: Event.waitVisible :: tail ∧
      (envClickOk.whenFirstVisible = Except.error () →
        ∀ v, Event.fetchEvt v ∉
          Event.clearFragment :: Event.waitVisible :: tail) ∧
      (envClickOk.whenFirstVisible = Except.ok () →
        ∃ rest, tail =
          Event.fetchEvt (invokeUrl envClickOk "https://ad.example/track")
            :: rest)) :=
  ⟨by decide, by decide,
    click_fragment_visible_fetch_order envClickOk "https://ad.example/track"
      (by decide) (by decide) (by decide)⟩

/-- `trackUrl = adTracking || adLocation` takes a non-empty value `t`
exactly when `tracking_url` is `t`, or `tracking_url` is falsy and
`location` is `t`. -/
lemma trackUrl_some_iff (response : AdResponse) (t : String) (hne : t ≠ "") :
    (if jsTruthy response.tracking_url then response.tracking_url
     else response.location) = some t ↔
      (response.tracking_url = some t ∨
        (jsTruthy response.tracking_url = false ∧
          response.location = some t)) := by
  by_cases htu : jsTruthy response.tracking_url = true
  · rw [if_pos htu]
    constructor
    · exact fun h => Or.inl h
    · rintro (h | h)
      · exact h
      · rw [h.1] at htu
        exact Bool.noConfusion htu
  · have htu' : jsTruthy response.tracking_url = false := by simpa using htu
    rw [if_neg htu]
    constructor
    · exact fun h => Or.inr ⟨htu', h⟩
    · rintro (h | h)
      · exfalso
        rw [h] at htu'
        simp [jsTruthy, hne] at htu'
      · exact h.2

/-- The beacon block fires `imageBeacon t` exactly when `trackUrl` equals
`t`, `t` is non-empty and `t` is not a proxy origin. -/
lemma mem_beaconEvents (env : Env) (response : AdResponse) (t : String) :
    Event.imageBeacon t ∈ beaconEvents env response ↔
      ((if jsTruthy response.tracking_url then response.tracking_url
        else response.location) = some t ∧ t ≠ "" ∧
        env.urlOps.isProxyOrigin t = false) := by
  unfold beaconEvents
  cases hif : (if jsTruthy response.tracking_url then response.tracking_url
               else response.location) with
  | none =>
      simp only [List.not_mem_nil, false_iff]
      rintro ⟨h1, _, _⟩
      exact Option.noConfusion h1
  | some s =>
      show Event.imageBeacon t ∈
          (if s ≠ "" ∧ env.urlOps.isProxyOrigin s = false then
            [Event.imageBeacon s] else []) ↔
          (some s = some t ∧ t ≠ "" ∧ env.urlOps.isProxyOrigin t = false)
      by_cases hc : s ≠ "" ∧ env.urlOps.isProxyOrigin s = false
      · rw [if_pos hc]
        simp only [List.mem_singleton, Event.imageBeacon.injEq]
        constructor
        · rintro rfl
          exact ⟨rfl, hc.1, hc.2⟩
        · rintro ⟨h1, _, _⟩
          injection h1 with h1
          exact h1.symm
      · rw [if_neg hc]
        simp only [List.not_mem_nil, false_iff]
        rintro ⟨h1, h2, h3⟩
        injection h1 with h1
        subst h1
        exact hc ⟨h2, h3⟩

/-- The history block never fires a beacon. -/
lemma imageBeacon_notin_historyEvents (env : Env) (response : AdResponse)
    (t : String) : Event.imageBeacon t ∉ historyEvents env response := by
  unfold historyEvents
  cases response.location with
  | none => simp
  | some loc =>
      by_cases hl : loc ≠ "" <;> cases hh : env.historyReplaceState <;>
        simp [hl, hh]

/-- The beacon block never rewrites history. -/
lemma historyReplace_notin_beaconEvents (env : Env) (response : AdResponse)
    (h : String) : Event.historyReplace h ∉ beaconEvents env response := by
  unfold beaconEvents
  cases (if jsTruthy response.tracking_url then response.tracking_url
         else response.location) with
  | none => simp
  | some t =>
      by_cases hc : t ≠ "" ∧ env.urlOps.isProxyOrigin t = false <;>
        simp [hc]

/-- The history block replaces the entry exactly when `location` is truthy
and `replaceState` is supported, and then with the current href augmented
by the parameters parsed from the location. -/
lemma mem_historyEvents (env : Env) (response : AdResponse) (h : String) :
    Event.historyReplace h ∈ historyEvents env response ↔
      (env.historyReplaceState = true ∧
        ∃ loc, response.location = some loc ∧ loc ≠ "" ∧
          h = env.urlOps.addParamsToUrl env.locationHref
                (env.urlOps.parseQueryString
                  (env.urlOps.parseUrlSearch loc))) := by
  unfold historyEvents
  cases hlo : response.location with
  | none =>
      simp only [List.not_mem_nil, false_iff]
      rintro ⟨h1, loc, h2, h3, h4⟩
      exact Option.noConfusion h2
  | some loc =>
      show Event.historyReplace h ∈
          (if loc ≠ "" then
            (if env.historyReplaceState then
              [Event.historyReplace
                (env.urlOps.addParamsToUrl env.locationHref
                  (env.urlOps.parseQueryString
                    (env.urlOps.parseUrlSearch loc)))]
             else [])
           else []) ↔
          (env.historyReplaceState = true ∧
            ∃ l2, some loc = some l2 ∧ l2 ≠ "" ∧
              h = env.urlOps.addParamsToUrl env.locationHref
                    (env.urlOps.parseQueryString
                      (env.urlOps.parseUrlSearch l2)))
      by_cases hl : loc ≠ ""
      · rw [if_pos hl]
        cases hh : env.historyReplaceState with
        | false =>
            rw [if_neg Bool.false_ne_true]
            simp only [List.not_mem_nil, false_iff]
            rintro ⟨h1, _⟩
            exact Bool.noConfusion h1
        | true =>
            rw [if_pos rfl]
            simp only [List.mem_singleton, Event.historyReplace.injEq]
            constructor
            · rintro rfl
              exact ⟨by trivial, loc, rfl, hl, rfl⟩
            · rintro ⟨_, l2, h2, h3, h4⟩
              have hl2 : loc = l2 := by injection h2
              subst hl2
              exact h4
      · rw [if_neg hl]
        simp only [List.not_mem_nil, false_iff]
        rintro ⟨h1, l2, h2, h3, h4⟩
        have hl2 : loc = l2 := by injection h2
        subst hl2
        exact hl h3

/-- Claim C8: `trackUrl` is `tracking_url` when truthy, else `location`;
the image beacon fires exactly when that value is non-empty and not a
proxy origin; the history entry is replaced exactly when `location` is
truthy and `replaceState` is supported, and then with the current href
augmented by the query parameters parsed from the location — never with
the raw location value. -/
theorem applyResponse_beacon_and_history (env : Env)
    (response : AdResponse) :
    (∀ t, Event.imageBeacon t ∈ applyResponse env response ↔
      (t ≠ "" ∧ env.urlOps.isProxyOrigin t = false ∧
        (response.tracking_url = some t ∨
          (jsTruthy response.tracking_url = false ∧
            response.location = some t)))) ∧
    (∀ h, Event.historyReplace h ∈ applyResponse env response ↔
      (env.historyReplaceState = true ∧
        ∃ loc, response.location = some loc ∧ loc ≠ "" ∧
          h = env.urlOps.addParamsToUrl env.locationHref
                (env.urlOps.parseQueryString
                  (env.urlOps.parseUrlSearch loc)))) := by
  constructor
  · intro t
    have hb := mem_beaconEvents env response t
    have hn := imageBeacon_notin_historyEvents env response t
    rw [applyResponse, List.mem_append]
    constructor
    · rintro (hm | hm)
      · obtain ⟨hif, hne, hpx⟩ := hb.mp hm
        exact ⟨hne, hpx, (trackUrl_some_iff response t hne).mp hif⟩
      · exact absurd hm hn
    · rintro ⟨hne, hpx, hd⟩
      exact Or.inl
        (hb.mpr ⟨(trackUrl_some_iff response t hne).mpr hd, hne, hpx⟩)
  · intro h
    have hh := mem_historyEvents env response h
    have hn := historyReplace_notin_beaconEvents env response h
    rw [applyResponse, List.mem_append]
    constructor
    · rintro (hm | hm)
      · exact absurd hm hn
      · exact hh.mp hm
    · intro hr
      exact Or.inr (hh.mpr hr)

/-- Claim C10: the beacon fires independently of the history-API check —
with `replaceState` unavailable and a non-empty non-proxy `trackUrl`, the
image request is still made and only the history rewrite is skipped. -/
theorem beacon_fires_without_history_api (env : Env)
    (response : AdResponse) (t : String)
    (hb : env.historyReplaceState = false)
    (ht : (if jsTruthy response.tracking_url then response.tracking_url
           else response.location) = some t)
    (hne : t ≠ "") (hpx : env.urlOps.isProxyOrigin t = false) :
    applyResponse env response = [Event.imageBeacon t] := by
  have hbe : beaconEvents env response = [Event.imageBeacon t] := by
    unfold beaconEvents
    rw [ht]
    show (if t ≠ "" ∧ env.urlOps.isProxyOrigin t = false then
        [Event.imageBeacon t] else []) = [Event.imageBeacon t]
    rw [if_pos ⟨hne, hpx⟩]
  have hhe : historyEvents env response = [] := by
    unfold historyEvents
    cases hlo : response.location with
    | none => rfl
    | some loc => by_cases hl : loc ≠ "" <;> simp [hl, hb]
  rw [applyResponse, hbe, hhe, List.append_nil]

/-- Witness for C10 at a concrete environment and response. -/
theorem beacon_fires_without_history_api_witness :
    envNoHistory.historyReplaceState = false ∧
    applyResponse envNoHistory respTrack =
      [Event.imageBeacon "https://track.example"] :=
  ⟨by decide,
    beacon_fires_without_history_api envNoHistory respTrack
      "https://track.example" (by decide) (by decide) (by decide)
      (by decide)⟩

/-- Claim C9: the session-promise accessor fails with an assertion error
on the initial (never-started) state and after a testing reset, and it
never returns a handle that was not stored. -/
theorem getTrackImpressionPromise_unset_asserts :
    getTrackImpressionPromise initialTrackImpressionState = Except.error () ∧
    getTrackImpressionPromise resetTrackImpressionPromiseForTesting =
      Except.error () ∧
    ∀ s p, getTrackImpressionPromise s = Except.ok p → s = some p := by
  refine ⟨rfl, rfl, ?_⟩
  intro s p h
  cases s with
  | none => exact absurd h (by simp [getTrackImpressionPromise])
  | some q =>
      have : q = p := by
        simpa [getTrackImpressionPromise] using h
      rw [this]

/-- Witness for C9: the accessor applied to a stored handle. -/
theorem getTrackImpressionPromise_unset_asserts_witness :
    (some PromiseState.fulfilled : Option PromiseState) =
      some PromiseState.fulfilled :=
  getTrackImpressionPromise_unset_asserts.2.2 (some PromiseState.fulfilled)
    PromiseState.fulfilled rfl

end Impression
